import Mathlib

/-!
# Verification of the `mailcop` email-validation library

A shallow embedding, in Lean 4, of the parts of the `mailcop` Go repository
that the specification's claims are about:

* the disposable-domain membership index (`providers.go`, `bloomfilter.go`):
  exact set mode, bloom-filter mode with trusted-domain override and a
  verification-attempt loop;
* the DNS MX resolution cache with TTL staleness and LRU eviction
  (`mxlookup.go`);
* the reserved-domain classifier (`reserved.go`), the bracketed-IP classifier
  (`ipdomain.go`);
* the per-address validation pipeline `Validate` and the batch entry point
  `ValidateMany` (`mailcop.go`).

Conventions of the embedding:

* Go `map[string]struct{}` sets are embedded as `List String` with membership
  via `List.contains`; Go `map[string]dnsResult` is an association list in a
  fixed iteration order (one admissible Go map iteration order).
* Wall-clock instants and `time.Duration` values are integers (`Int`, Go's
  nanosecond counts); each call that reads the clock takes `now` as an
  argument.
* External collaborators (the RFC 5322 parser `mail.ParseAddress`,
  `net.ParseIP`, the live `net.LookupMX` call, list fetching, filter
  (de)serialization) are out of scope per the specification and enter as
  explicit oracle arguments.
* Fallible external steps return `Option String` (`none` = success,
  `some msg` = error), mirroring Go's `error` values.
-/

set_option autoImplicit false

namespace Mailcop

/-! ## Go string primitives

The Go `strings` operations the claims compute with, implemented over the
character list of a `String` by structural recursion (Lean's own `String`
operations are defined by well-founded recursion on byte positions and do
not reduce in the kernel).  Semantics match the corresponding Go functions
on UTF-8 strings. -/

/-- `strings.Split(s, sep)` for a one-character separator, on the character
list: segments between occurrences of the separator, empty segments kept;
`[""]` for the empty string, as in Go. -/
def splitOnChar (sep : Char) : List Char → List (List Char)
  | [] => [[]]
  | c :: cs =>
      if c = sep then [] :: splitOnChar sep cs
      else
        match splitOnChar sep cs with
        | [] => [[c]]
        | seg :: segs => (c :: seg) :: segs

/-- `strings.Split(address, "@")`. -/
def goSplitAt (s : String) : List String :=
  (splitOnChar '@' s.data).map String.mk

/-- `strings.HasSuffix s p`. -/
def goEndsWith (s p : String) : Bool :=
  p.data.isSuffixOf s.data

/-- `strings.HasPrefix s p`. -/
def goStartsWith (s p : String) : Bool :=
  p.data.isPrefixOf s.data

/-- `strings.ToLower`, restricted (as the reserved lists are) to ASCII. -/
def goToLower (s : String) : String :=
  String.mk (s.data.map Char.toLower)

/-- `s[n:]` — drop the first `n` characters. -/
def goDrop (s : String) (n : Nat) : String :=
  String.mk (s.data.drop n)

/-- `s[:len(s)-n]` — drop the last `n` characters. -/
def goDropRight (s : String) (n : Nat) : String :=
  String.mk (s.data.take (s.data.length - n))

/-! ## Bloom filter (bits-and-blooms `bloom.BloomFilter` as used by the repo)

The library's filter is a bit array plus a fixed family of hash functions:
`Add` sets the bit at every hash location of the key, `Test` reads the bit at
every hash location of the key and reports "possibly present" only when all
are set.  `Test` is a pure function of the filter state and the key.  The
hash family itself is opaque to the repository, so it is an abstract field
here; every theorem quantifies over it. -/

structure BloomFilter where
  /-- Number of hash functions (`k` of the bits-and-blooms filter). -/
  numHash : Nat
  /-- Abstract hash family: location of the `j`-th hash of a key. -/
  hash : Nat → String → Nat
  /-- The bit array, as a predicate on locations. -/
  bits : Nat → Bool

/-- `filter.Add([]byte(domain))`: set the bit at every hash location. -/
def BloomFilter.add (f : BloomFilter) (d : String) : BloomFilter :=
  { f with bits := fun i => f.bits i || (List.range f.numHash).any fun j => f.hash j d == i }

/-- `filter.Test([]byte(domain))`: all hash locations set. -/
def BloomFilter.test (f : BloomFilter) (d : String) : Bool :=
  (List.range f.numHash).all fun j => f.bits (f.hash j d)

/-! ## Options (`mailcop.go`) and bloom options (`bloomfilter.go`) -/

/-- `BloomOptions` of `bloomfilter.go`.  `FalsePositiveRate` (a `float64`
consumed only by the external filter-sizing call `bloom.NewWithEstimates`)
does not participate in any claim and is omitted from the state. -/
structure BloomOptions where
  trustedDomains : List String
  verificationAttempts : Int

/-- `DefaultBloomOptions` (`bloomfilter.go`), minus the float rate. -/
def defaultBloomOptions : BloomOptions :=
  { trustedDomains := [], verificationAttempts := 1 }

/-- `Options` of `mailcop.go`. -/
structure Options where
  checkDNS : Bool
  checkDisposable : Bool
  checkFreeProvider : Bool
  dnsCacheTTL : Int
  dnsCacheSize : Int
  dnsTimeout : Int
  disposableListURL : String
  freeProvidersURL : String
  maxEmailLength : Int
  minDomainLength : Int
  rejectDisposable : Bool
  rejectFreeProvider : Bool
  rejectIPDomains : Bool
  rejectNamedEmails : Bool
  rejectReserved : Bool

/-- `DefaultOptions` (`mailcop.go:33`).  Durations in nanoseconds. -/
def defaultOptions : Options where
  checkDNS := false
  checkDisposable := false
  checkFreeProvider := false
  dnsCacheTTL := 3600000000000
  dnsCacheSize := 1000
  dnsTimeout := 3000000000
  disposableListURL := "https://disposable.github.io/disposable-email-domains/domains.json"
  freeProvidersURL := ""
  maxEmailLength := 254
  minDomainLength := 1
  rejectDisposable := false
  rejectFreeProvider := false
  rejectIPDomains := false
  rejectNamedEmails := false
  rejectReserved := false

/-- `mergeWithDefaults` (`mailcop.go:123`): fill zero-valued numeric and
string fields from the defaults; booleans pass through. -/
def mergeWithDefaults (opts : Options) : Options :=
  let opts := if opts.dnsCacheTTL = 0 then { opts with dnsCacheTTL := defaultOptions.dnsCacheTTL } else opts
  let opts := if opts.dnsCacheSize = 0 then { opts with dnsCacheSize := defaultOptions.dnsCacheSize } else opts
  let opts := if opts.dnsTimeout = 0 then { opts with dnsTimeout := defaultOptions.dnsTimeout } else opts
  let opts := if opts.maxEmailLength = 0 then { opts with maxEmailLength := defaultOptions.maxEmailLength } else opts
  let opts := if opts.minDomainLength = 0 then { opts with minDomainLength := defaultOptions.minDomainLength } else opts
  let opts := if opts.disposableListURL = "" then { opts with disposableListURL := defaultOptions.disposableListURL } else opts
  let opts := if opts.freeProvidersURL = "" then { opts with freeProvidersURL := defaultOptions.freeProvidersURL } else opts
  opts

/-- `DefaultFreeProviders` (`mailcop.go:54`). -/
def defaultFreeProviders : List String :=
  ["gmail.com", "yahoo.com", "hotmail.com", "outlook.com", "aol.com"]

/-! ## DNS resolution cache (`mxlookup.go`) -/

/-- `dnsResult` (`mxlookup.go:10`): lookup outcome plus bookkeeping times. -/
structure DnsResult where
  err : Option String
  cachedAt : Int
  lastUsed : Int
  deriving DecidableEq

/-- Go map read `v.dnsCache[domain]` on the association-list model. -/
def findEntry (cache : List (String × DnsResult)) (k : String) : Option DnsResult :=
  (cache.find? fun e => e.1 == k).map Prod.snd

/-- Go map write `v.dnsCache[domain] = r`: replace in place if the key is
present, otherwise add. -/
def insertEntry (cache : List (String × DnsResult)) (k : String) (r : DnsResult) :
    List (String × DnsResult) :=
  if cache.any (fun e => e.1 == k) then
    cache.map fun e => if e.1 == k then (k, r) else e
  else
    cache ++ [(k, r)]

/-- Go `delete(v.dnsCache, k)`. -/
def eraseEntry (cache : List (String × DnsResult)) (k : String) :
    List (String × DnsResult) :=
  cache.filter fun e => !(e.1 == k)

/-- The deletions performed by the eviction loop (`mxlookup.go:68-72`):
every entry whose age reached the TTL is removed. -/
def evictExpired (cache : List (String × DnsResult)) (now ttl : Int) :
    List (String × DnsResult) :=
  cache.filter fun e => now - e.2.cachedAt < ttl

/-- The LRU tracking of the eviction loop (`mxlookup.go:61-79`) restricted to
the surviving (non-expired) entries: the first entry attaining the minimal
`lastUsed` in iteration order (`entry.lastUsed.Before(lruTime)` is a strict
comparison, so ties keep the earlier-seen entry).  When no entry survives,
`lruKey` keeps its zero value `""`. -/
def lruKey (cache : List (String × DnsResult)) : String :=
  match cache with
  | [] => ""
  | e :: es => (es.foldl (fun acc e2 => if e2.2.lastUsed < acc.2.lastUsed then e2 else acc) e).1

/-- The eviction block run before an insert (`mxlookup.go:59-85`): when the
cache is at (or beyond) capacity, first drop every expired entry, and if the
cache is still at capacity drop the least-recently-used surviving entry
(`delete` of the zero-valued key `""` when nothing survived). -/
def evictForInsert (cache : List (String × DnsResult)) (now ttl size : Int) :
    List (String × DnsResult) :=
  if size ≤ (cache.length : Int) then
    let survivors := evictExpired cache now ttl
    if size ≤ (survivors.length : Int) then eraseEntry survivors (lruKey survivors)
    else survivors
  else cache

/-! ## Validator state -/

/-- The `Validator` struct (`mailcop.go:85`), restricted to the fields the
claims touch.  `trustedDomains` is the field written by
`RegisterTrustedDomains` (`providers.go:40`) and read first by `isDisposable`
(`providers.go:174`). -/
structure Validator where
  options : Options
  disposableDomains : List String
  trustedDomains : List String
  bloomFilter : Option BloomFilter
  bloomOptions : BloomOptions
  freeProviders : List String
  dnsCache : List (String × DnsResult)

/-- `New` (`mailcop.go:95`), on the success path.  The initial disposable
list fetch is external; `loadedDisposable` is the fetched list, folded into
the (map-mode) set exactly when `CheckDisposable` is on, as
`LoadDisposableDomains` does with a nil bloom filter (`providers.go:69-77`).
The free-provider load is analogous. -/
def newValidator (opts : Options) (loadedDisposable loadedFree : List String) : Validator :=
  let o := mergeWithDefaults opts
  { options := o
    disposableDomains := if o.checkDisposable then loadedDisposable else []
    trustedDomains := []
    bloomFilter := none
    bloomOptions := { trustedDomains := [], verificationAttempts := 0 }
    freeProviders := defaultFreeProviders ++ (if o.checkFreeProvider then loadedFree else [])
    dnsCache := [] }

/-! ## `validateMX` (`mxlookup.go:17`)

The live `net.LookupMX` round (with its timeout race) is external: `lookup`
is its outcome for this call (`none` = MX records found, `some msg` = lookup
failure or timeout).  `now` is the reading of the clock during the call.

Faithfulness note for the cache-hit path (`mxlookup.go:29-31`): the Go code
re-reads the entry under the write lock into the local variable `result` —
a *copy* of the map value — assigns `result.lastUsed = time.Now()` to that
copy, and never stores the copy back into the map.  The map is therefore
unchanged by a hit, which is why the hit branch below returns the state `v`
as is. -/
/-- The shared tail of `validateMX` reached on a miss or on a stale entry
(`mxlookup.go:38-93`): the live lookup's outcome (`lookup`) is cached —
after the eviction block when at capacity — and returned. -/
def validateMXMiss (v : Validator) (domain : String) (now : Int) (lookup : Option String) :
    Validator × Option String :=
  let cache := evictForInsert v.dnsCache now v.options.dnsCacheTTL v.options.dnsCacheSize
  ({ v with dnsCache := insertEntry cache domain { err := lookup, cachedAt := now, lastUsed := now } },
    lookup)

def validateMX (v : Validator) (domain : String) (now : Int) (lookup : Option String) :
    Validator × Option String :=
  if !v.options.checkDNS then (v, none)
  else
    match findEntry v.dnsCache domain with
    | some result =>
        if now - result.cachedAt < v.options.dnsCacheTTL then (v, result.err)
        else validateMXMiss v domain now lookup
    | none => validateMXMiss v domain now lookup

/-- A sequence of `validateMX` resolutions: each step is
(domain, clock reading, external lookup outcome). -/
def runResolutions (v : Validator) (steps : List (String × Int × Option String)) : Validator :=
  steps.foldl (fun s st => (validateMX s st.1 st.2.1 st.2.2).1) v

/-! ## Reserved-domain classifier (`reserved.go`) -/

/-- `reservedDomains` (`reserved.go:7`). -/
def reservedDomains : List String :=
  ["example.com", "example.net", "example.org", "example.edu", "localhost"]

/-- `reservedTLDs` (`reserved.go:16`). -/
def reservedTLDs : List String :=
  ["test", "example", "invalid", "localhost"]

/-- `isReserved` (`reserved.go:25`): lowercase, then two sequential
early-return loops — exact matches against `reservedDomains`, then
`strings.HasSuffix(domain, "."+tld) || domain == tld` against
`reservedTLDs`. -/
def isReserved (domain : String) : Bool :=
  let domain := goToLower domain
  reservedDomains.any (fun reserved => domain == reserved) ||
    reservedTLDs.any fun tld => goEndsWith domain ("." ++ tld) || domain == tld

/-! ## Bracketed-IP classifier (`ipdomain.go:33`)

`net.ParseIP` is standard-library-external: `parseIP` reports whether the
string parses as an IPv4 or IPv6 literal. -/

def isIPDomain (parseIP : String → Bool) (domain : String) : Bool :=
  if goStartsWith domain "[" && goEndsWith domain "]" then
    let ipStr := goDropRight (goDrop domain 1) 1
    let ipStr := if goStartsWith ipStr "IPv6:" then goDrop ipStr 5 else ipStr
    parseIP ipStr
  else false

/-! ## Disposable-domain membership index (`providers.go`, `bloomfilter.go`) -/

/-- `isDisposable` (`providers.go:165`).  Order of checks, as in the source:
the `CheckDisposable` gate; the trusted set; then, in bloom mode, the
(repurposed) `disposableDomains` whitelist, then `VerificationAttempts`
iterations of `bloomFilter.Test` each of which short-circuits to `false` on
a "definitely absent" answer (`for i := 0; i < attempts; i++`, so a
non-positive count runs zero iterations); in map mode, plain set
membership. -/
def isDisposable (v : Validator) (domain : String) : Bool :=
  if !v.options.checkDisposable then false
  else if v.trustedDomains.contains domain then false
  else
    match v.bloomFilter with
    | some filter =>
        if v.disposableDomains.contains domain then false
        else (List.range v.bloomOptions.verificationAttempts.toNat).all fun _ =>
          filter.test domain
    | none => v.disposableDomains.contains domain

/-- `isFreeProvider` (`providers.go:202`). -/
def isFreeProvider (v : Validator) (domain : String) : Bool :=
  if !v.options.checkFreeProvider then false
  else v.freeProviders.contains domain

/-- `RegisterDisposableDomains` (`providers.go:24`): into the filter in bloom
mode, into the set in map mode. -/
def registerDisposableDomains (v : Validator) (domains : List String) : Validator :=
  match v.bloomFilter with
  | some filter => { v with bloomFilter := some (domains.foldl BloomFilter.add filter) }
  | none => { v with disposableDomains := v.disposableDomains ++ domains }

/-- `RegisterTrustedDomains` (`providers.go:40`). -/
def registerTrustedDomains (v : Validator) (domains : List String) : Validator :=
  { v with trustedDomains := v.trustedDomains ++ domains }

/-- Any finite sequence of `RegisterDisposableDomains` calls. -/
def applyRegistrations (v : Validator) (regs : List (List String)) : Validator :=
  regs.foldl registerDisposableDomains v

/-- `UseBloomFilter` (`bloomfilter.go:42`), success path.  The URL fetch and
`bloom.NewWithEstimates` sizing are external: `freshFilter` is the newly
allocated (empty) filter.  The pre-existing map-mode entries are folded into
the filter; the map is then repurposed to hold `opts.TrustedDomains` (the
whitelist consulted by `isDisposable` in bloom mode). -/
def useBloomFilter (v : Validator) (freshFilter : BloomFilter) (opts : BloomOptions) : Validator :=
  let filter := v.disposableDomains.foldl BloomFilter.add freshFilter
  { v with
    bloomFilter := some filter
    disposableDomains := opts.trustedDomains
    bloomOptions := opts }

/-- `LoadBloomFilter` (`bloomfilter.go:91`), success path: deserialization is
external (`filter` is the decoded filter); the only state change is
installing it.  In particular `disposableDomains` and `bloomOptions` are left
untouched. -/
def loadBloomFilter (v : Validator) (filter : BloomFilter) : Validator :=
  { v with bloomFilter := some filter }

/-! ## Domain extraction inside `Validate` (`mailcop.go:187-188`) -/

/-- `parts := strings.Split(addr.Address, "@"); domain := parts[1]`:
the segment of the normalized address between its first and second `@`.
`mail.ParseAddress` guarantees the address contains an `@`, so `parts` has
at least two elements; the `getD` default is unreachable then. -/
def extractDomain (address : String) : String :=
  ((goSplitAt address).get? 1).getD ""

/-- Modelled from the spec: "Split normalized address into local-part and
domain at the final `@`" — the domain is the substring after the *last* `@`,
i.e. the last segment of splitting on `@`.  Stated from the spec's words to
compare against `extractDomain`, which is translated from the source. -/
def specDomainAfterLastAt (address : String) : String :=
  (goSplitAt address).getLast?.getD ""

/-! ## The validation pipeline (`mailcop.go:156`) -/

/-- `ValidationResult` (`mailcop.go:64`).  `ValidationTime` is wall-clock
telemetry and is omitted. -/
structure ValidationResult where
  address : String
  isDisposable : Bool
  isFreeProvider : Bool
  isIPDomain : Bool
  isReserved : Bool
  isValid : Bool
  lastError : Option String
  name : String
  original : String
  deriving DecidableEq

/-- The external collaborators of `Validate`, per the specification's scope:
the address parser (`mail.ParseAddress`, returning display name and
normalized address, or failing), the IP-literal parser (`net.ParseIP`), and
the live MX lookup outcome. -/
structure Ext where
  parseAddress : String → Option (String × String)
  parseIP : String → Bool
  lookupMX : String → Option String

/-- `Validate` (`mailcop.go:156`): the ordered pipeline, each step able to
return early with an error.  Lengths are byte lengths (Go `len`).  The DNS
step reuses `validateMX` on the validator's current cache; only the
returned error reaches the result. -/
def validate (v : Validator) (ext : Ext) (now : Int) (email : String) : ValidationResult :=
  let result : ValidationResult :=
    { address := "", isDisposable := false, isFreeProvider := false,
      isIPDomain := false, isReserved := false, isValid := false,
      lastError := none, name := "", original := email }
  if v.options.maxEmailLength < (email.utf8ByteSize : Int) then
    { result with lastError := some "email exceeds maximum length" }
  else
    match ext.parseAddress email with
    | none => { result with lastError := some "invalid email format" }
    | some (name, address) =>
        let result := { result with name := name, address := address }
        if v.options.rejectNamedEmails && !(address == email) then
          { result with lastError := some "named email addresses are not allowed" }
        else
          let domain := extractDomain address
          if (domain.utf8ByteSize : Int) < v.options.minDomainLength then
            { result with lastError := some "domain too short" }
          else
            let result := { result with isIPDomain := isIPDomain ext.parseIP domain }
            if result.isIPDomain && v.options.rejectIPDomains then
              { result with lastError := some "IP address domains are not allowed" }
            else
              let result := { result with isReserved := isReserved domain }
              if result.isReserved && v.options.rejectReserved then
                { result with lastError := some "reserved domain" }
              else
                let result := { result with isDisposable := isDisposable v domain }
                if result.isDisposable && v.options.rejectDisposable then
                  { result with lastError := some "disposable domain" }
                else
                  let result := { result with isFreeProvider := isFreeProvider v domain }
                  if result.isFreeProvider && v.options.rejectFreeProvider then
                    { result with lastError := some "free email provider" }
                  else
                    match (validateMX v domain now (ext.lookupMX domain)).2 with
                    | some _ => { result with lastError := some "invalid domain" }
                    | none => { result with isValid := true }

/-! ## `ValidateMany` (`mailcop.go:248`)

One goroutine per input sends `v.Validate(e)` into a buffered channel sized
to the input; the collector drains the channel until all are done.  The
channel delivers exactly the launched results, in an order chosen by the
scheduler: `arrival` is that order, a permutation of the input positions.
The empty-input early return (`return nil`) is the first branch. -/

def validateMany (v : Validator) (ext : Ext) (now : Int) (emails : List String)
    (arrival : List (Fin emails.length)) : List ValidationResult :=
  if emails.isEmpty then []
  else arrival.map fun i => validate v ext now (emails.get i)

/-! ## Claim C1: domain extraction -/

/-- C1 counterexample: the claim says the domain passed to the subsequent
checks is the substring after the *last* `@` of the normalized address, even
when the (quoted) local part contains `@`.  `mail.ParseAddress` accepts
`"a@b"@example.com` and its normalized `Address` is `a@b@example.com`
(quoted-string content is decoded); on it the source's
`strings.Split(addr.Address, "@")[1]` yields `b`, not `example.com`. -/
theorem extractDomain_ne_after_last_at :
    extractDomain "a@b@example.com" = "b" ∧
      specDomainAfterLastAt "a@b@example.com" = "example.com" ∧
      extractDomain "a@b@example.com" ≠ specDomainAfterLastAt "a@b@example.com" := by
  refine ⟨rfl, rfl, ?_⟩
  decide

/-- C1 (amended): the source takes `parts[1]` of splitting the normalized
address at every `@` — the segment between the first and the second `@`.
That agrees with the substring after the last `@` exactly when the
normalized address contains a single `@` (the split has two parts), which
holds for every address whose local part contains no `@`. -/
theorem extractDomain_eq_after_last_at_of_single_at (address : String)
    (h : (goSplitAt address).length = 2) :
    extractDomain address = specDomainAfterLastAt address := by
  rcases hl : goSplitAt address with _ | ⟨a, _ | ⟨b, rest⟩⟩ <;>
    rw [hl] at h <;> simp at h
  subst h
  simp [extractDomain, specDomainAfterLastAt, hl]

/-- C1 witness: a concrete single-`@` address. -/
theorem extractDomain_eq_after_last_at_witness :
    extractDomain "user@example.com" = specDomainAfterLastAt "user@example.com" :=
  extractDomain_eq_after_last_at_of_single_at "user@example.com" (by decide)

/-! ## Claim C7: the reserved-domain classifier -/

/-- C7: `isReserved` is case-insensitive (it depends only on the lowercased
domain) and holds exactly when the lowercased domain equals one of the five
reserved domains, or equals one of the reserved TLDs, or ends with `"."`
followed by one of them; the dot forces a full label boundary, so
`mytest.com` is not reserved while `domain.test` is. -/
theorem isReserved_characterization :
    (∀ domain : String,
      isReserved domain = true ↔
        (goToLower domain ∈ reservedDomains ∨
          ∃ tld ∈ reservedTLDs,
            goEndsWith (goToLower domain) ("." ++ tld) = true ∨ goToLower domain = tld)) ∧
    (∀ d₁ d₂ : String, goToLower d₁ = goToLower d₂ → isReserved d₁ = isReserved d₂) ∧
    isReserved "mytest.com" = false ∧
    isReserved "domain.test" = true ∧
    isReserved "EXAMPLE.COM" = true := by
  refine ⟨?_, ?_, by decide, by decide, by decide⟩
  · intro domain
    simp [isReserved, List.any_eq_true]
  · intro d₁ d₂ h
    simp only [isReserved, h]

/-- C7 witness: the case-insensitivity conjunct has a hypothesis; discharge
it at a concrete pair of case-variants. -/
theorem isReserved_characterization_witness :
    isReserved "Example.COM" = isReserved "example.com" :=
  isReserved_characterization.2.1 "Example.COM" "example.com" (by decide)

/-! ## Claim C9: non-positive `VerificationAttempts` in bloom mode -/

/-- C9: in bloom mode, with `VerificationAttempts ≤ 0` (as in a zero-valued
`BloomOptions` not built via `DefaultBloomOptions`), the verification loop
`for i := 0; i < attempts; i++` runs zero iterations, so `isDisposable`
falls through to `return true` for every domain that is neither trusted nor
in the whitelist set. -/
theorem isDisposable_nonpositive_attempts (v : Validator) (f : BloomFilter) (d : String)
    (hcheck : v.options.checkDisposable = true)
    (hbloom : v.bloomFilter = some f)
    (hatt : v.bloomOptions.verificationAttempts ≤ 0)
    (htrusted : d ∉ v.trustedDomains)
    (hwhite : d ∉ v.disposableDomains) :
    isDisposable v d = true := by
  simp [isDisposable, hcheck, hbloom, htrusted, hwhite, Int.toNat_of_nonpos hatt]

/-- C9 witness: a concrete bloom-mode validator with the zero-valued
`BloomOptions` (`VerificationAttempts = 0`) reports an unknown domain
disposable. -/
theorem isDisposable_nonpositive_attempts_witness :
    isDisposable
      { options := { defaultOptions with checkDisposable := true }
        disposableDomains := []
        trustedDomains := []
        bloomFilter := some { numHash := 0, hash := fun _ _ => 0, bits := fun _ => false }
        bloomOptions := { trustedDomains := [], verificationAttempts := 0 }
        freeProviders := []
        dnsCache := [] } "never-added.com" = true :=
  isDisposable_nonpositive_attempts _ _ _ rfl rfl (by decide) (by simp) (by simp)

/-! ## Claim C10: `LoadBloomFilter` over an exact-mode validator -/

/-- C10: a successful `LoadBloomFilter` on an exact-mode validator installs
the filter (switching `isDisposable` to the bloom branch) and leaves the
exact disposable set untouched; that set is the whitelist the bloom branch
consults, so a domain previously registered as disposable (reported `true`
in exact mode) is reported not disposable afterwards — for *every* loaded
filter `f`, in particular one whose `Test` answers "possibly present" for
that domain. -/
theorem loadBloomFilter_turns_exact_set_into_whitelist
    (v : Validator) (f : BloomFilter) (d : String)
    (hexact : v.bloomFilter = none)
    (hmem : d ∈ v.disposableDomains)
    (hcheck : v.options.checkDisposable = true)
    (htrusted : d ∉ v.trustedDomains) :
    (loadBloomFilter v f).bloomFilter = some f ∧
    (loadBloomFilter v f).disposableDomains = v.disposableDomains ∧
    isDisposable v d = true ∧
    isDisposable (loadBloomFilter v f) d = false := by
  refine ⟨rfl, rfl, ?_, ?_⟩ <;>
    simp [isDisposable, loadBloomFilter, hexact, hmem, hcheck, htrusted]

/-- C10 witness: a concrete exact-mode validator with `trash.com` registered
disposable, loading a filter that answers "possibly present" everywhere
(`numHash = 0`). -/
theorem loadBloomFilter_turns_exact_set_into_whitelist_witness :
    isDisposable
      (loadBloomFilter
        { options := { defaultOptions with checkDisposable := true }
          disposableDomains := ["trash.com"]
          trustedDomains := []
          bloomFilter := none
          bloomOptions := { trustedDomains := [], verificationAttempts := 1 }
          freeProviders := []
          dnsCache := [] }
        { numHash := 0, hash := fun _ _ => 0, bits := fun _ => false }) "trash.com" = false :=
  (loadBloomFilter_turns_exact_set_into_whitelist _ _ _ rfl (by simp) rfl (by simp)).2.2.2

/-! ## Claim C3: `VerificationAttempts` and the false-positive rate -/

/-- A conjunction of `n ≥ 1` copies of the same boolean is that boolean. -/
lemma all_range_const (n : Nat) (hn : 0 < n) (c : Bool) :
    ((List.range n).all fun _ => c) = c := by
  cases c
  · rw [List.all_eq_false]
    exact ⟨0, List.mem_range.mpr hn, by simp⟩
  · simp

/-- C3 is refuted by this theorem: `bloomFilter.Test` is a pure function of
the filter state and the domain, and the verification loop
(`providers.go:187-191`) re-runs that same test on the same arguments, so
`isDisposable`'s outcome is *identical* for every `VerificationAttempts ≥ 1`.
Over any sample of never-registered domains the observed false-positive
frequency is therefore the same for every `k ≥ 1` — it does not strictly
decrease, and the realized rate stays at the configured rate `p` rather
than `p^k`.  This contradicts the code's own `VerificationAttempts`
documentation, which promises a `FalsePositiveRate^VerificationAttempts`
realized rate from checks "with different hash functions". -/
theorem isDisposable_independent_of_attempts (v : Validator) (d : String) (k₁ k₂ : Int)
    (h₁ : 1 ≤ k₁) (h₂ : 1 ≤ k₂) :
    isDisposable { v with bloomOptions := { v.bloomOptions with verificationAttempts := k₁ } } d =
      isDisposable { v with bloomOptions := { v.bloomOptions with verificationAttempts := k₂ } } d := by
  have t₁ : 0 < k₁.toNat := by omega
  have t₂ : 0 < k₂.toNat := by omega
  unfold isDisposable
  cases hb : v.bloomFilter with
  | none => rfl
  | some f => simp [all_range_const _ t₁, all_range_const _ t₂]

/-- C3 witness: a bloom-mode validator whose filter answers "possibly
present" for the never-added domain `fp.com` (a false positive): one
verification attempt and two verification attempts classify it
identically. -/
theorem isDisposable_independent_of_attempts_witness :
    isDisposable
        { options := { defaultOptions with checkDisposable := true }
          disposableDomains := []
          trustedDomains := []
          bloomFilter := some { numHash := 1, hash := fun _ _ => 0, bits := fun _ => true }
          bloomOptions := { trustedDomains := [], verificationAttempts := 1 }
          freeProviders := []
          dnsCache := [] } "fp.com" =
      isDisposable
        { options := { defaultOptions with checkDisposable := true }
          disposableDomains := []
          trustedDomains := []
          bloomFilter := some { numHash := 1, hash := fun _ _ => 0, bits := fun _ => true }
          bloomOptions := { trustedDomains := [], verificationAttempts := 2 }
          freeProviders := []
          dnsCache := [] } "fp.com" :=
  isDisposable_independent_of_attempts
    { options := { defaultOptions with checkDisposable := true }
      disposableDomains := []
      trustedDomains := []
      bloomFilter := some { numHash := 1, hash := fun _ _ => 0, bits := fun _ => true }
      bloomOptions := { trustedDomains := [], verificationAttempts := 1 }
      freeProviders := []
      dnsCache := [] } "fp.com" 1 2 (by decide) (by decide)

/-! ## Claim C4: trusted domains are never reported disposable -/

/-- The states from which `isDisposable` answers `false` for `d` through one
of the two whitelist checks: `d` is in the trusted set, or the validator is
in bloom mode and `d` is in the repurposed exact set. -/
def TrustedSafe (v : Validator) (d : String) : Prop :=
  d ∈ v.trustedDomains ∨ (v.bloomFilter ≠ none ∧ d ∈ v.disposableDomains)

lemma isDisposable_eq_false_of_trustedSafe (v : Validator) (d : String)
    (h : TrustedSafe v d) : isDisposable v d = false := by
  rcases h with h | ⟨hb, hd⟩
  · simp [isDisposable, h]
  · cases hf : v.bloomFilter with
    | none => exact absurd hf hb
    | some f => simp [isDisposable, hf, hd]

lemma registerDisposableDomains_trustedSafe (v : Validator) (ds : List String) (d : String)
    (h : TrustedSafe v d) : TrustedSafe (registerDisposableDomains v ds) d := by
  cases hf : v.bloomFilter with
  | none =>
      rcases h with h | ⟨hb, _⟩
      · exact Or.inl (by simpa [registerDisposableDomains, hf] using h)
      · exact absurd hf hb
  | some f =>
      rcases h with h | ⟨_, hd⟩
      · exact Or.inl (by simpa [registerDisposableDomains, hf] using h)
      · exact Or.inr ⟨by simp [registerDisposableDomains, hf], by simpa [registerDisposableDomains, hf] using hd⟩

lemma applyRegistrations_trustedSafe (regs : List (List String)) (v : Validator) (d : String)
    (h : TrustedSafe v d) : TrustedSafe (applyRegistrations v regs) d := by
  induction regs generalizing v with
  | nil => exact h
  | cons r rs ih =>
      exact ih _ (registerDisposableDomains_trustedSafe v r d h)

/-- C4: a domain in the trusted set — whether added via
`RegisterTrustedDomains` or supplied as `BloomOptions.TrustedDomains` when
upgrading with `UseBloomFilter` — is reported not disposable by
`isDisposable`, for every validator state (any filter contents, any exact
set) and after any further sequence of `RegisterDisposableDomains` calls. -/
theorem trusted_domains_never_disposable (v : Validator) (ds : List String)
    (fresh : BloomFilter) (opts : BloomOptions) (regs : List (List String)) (d : String) :
    (d ∈ ds →
      isDisposable (applyRegistrations (registerTrustedDomains v ds) regs) d = false) ∧
    (d ∈ v.trustedDomains →
      isDisposable (applyRegistrations v regs) d = false) ∧
    (d ∈ opts.trustedDomains →
      isDisposable (applyRegistrations (useBloomFilter v fresh opts) regs) d = false) := by
  refine ⟨fun hd => ?_, fun hd => ?_, fun hd => ?_⟩ <;>
    apply isDisposable_eq_false_of_trustedSafe
  · apply applyRegistrations_trustedSafe
    exact Or.inl (by simp [registerTrustedDomains, hd])
  · exact applyRegistrations_trustedSafe _ _ _ (Or.inl hd)
  · apply applyRegistrations_trustedSafe
    exact Or.inr ⟨by simp [useBloomFilter], by simpa [useBloomFilter] using hd⟩

/-- C4 witness: both provenances of trust at concrete inputs, surviving a
further disposable registration of the very same domain. -/
theorem trusted_domains_never_disposable_witness :
    (isDisposable
        (applyRegistrations
          (registerTrustedDomains
            { options := { defaultOptions with checkDisposable := true }
              disposableDomains := []
              trustedDomains := []
              bloomFilter := none
              bloomOptions := { trustedDomains := [], verificationAttempts := 1 }
              freeProviders := []
              dnsCache := [] } ["safe.com"]) [["safe.com"]]) "safe.com" = false) ∧
    (isDisposable
        (applyRegistrations
          (useBloomFilter
            { options := { defaultOptions with checkDisposable := true }
              disposableDomains := []
              trustedDomains := []
              bloomFilter := none
              bloomOptions := { trustedDomains := [], verificationAttempts := 1 }
              freeProviders := []
              dnsCache := [] }
            { numHash := 1, hash := fun _ _ => 0, bits := fun _ => true }
            { trustedDomains := ["corp.com"], verificationAttempts := 1 }) [["corp.com"]]) "corp.com" = false) :=
  ⟨(trusted_domains_never_disposable
      { options := { defaultOptions with checkDisposable := true }
        disposableDomains := []
        trustedDomains := []
        bloomFilter := none
        bloomOptions := { trustedDomains := [], verificationAttempts := 1 }
        freeProviders := []
        dnsCache := [] } ["safe.com"]
      { numHash := 1, hash := fun _ _ => 0, bits := fun _ => true }
      { trustedDomains := ["corp.com"], verificationAttempts := 1 } [["safe.com"]] "safe.com").1
      (by simp),
   (trusted_domains_never_disposable
      { options := { defaultOptions with checkDisposable := true }
        disposableDomains := []
        trustedDomains := []
        bloomFilter := none
        bloomOptions := { trustedDomains := [], verificationAttempts := 1 }
        freeProviders := []
        dnsCache := [] } ["safe.com"]
      { numHash := 1, hash := fun _ _ => 0, bits := fun _ => true }
      { trustedDomains := ["corp.com"], verificationAttempts := 1 } [["corp.com"]] "corp.com").2.2
      (by simp)⟩

/-! ## Claim C2: last-read bookkeeping on a cache hit -/

/-- A validator with DNS checking on, a 100ns TTL, and one cached entry for
`gmail.com` read and cached at time 0. -/
def hitValidator : Validator :=
  { options := { defaultOptions with checkDNS := true, dnsCacheTTL := 100 }
    disposableDomains := []
    trustedDomains := []
    bloomFilter := none
    bloomOptions := { trustedDomains := [], verificationAttempts := 0 }
    freeProviders := []
    dnsCache := [("gmail.com", { err := none, cachedAt := 0, lastUsed := 0 })] }

/-- C2 fails on the code: serving this cache hit at time 5 returns the
cached outcome (`none`, not the pending lookup's error — no lookup is used),
yet the stored entry still carries `lastUsed = 0`, not 5.  The assignment
`result.lastUsed = time.Now()` at `mxlookup.go:30` mutates a *copy* of the
map value that is never written back, so the cached entry's last-read time
is never updated — contradicting the code's own comment ("Update last used
time under write lock") and its LRU test, which expects a re-read entry to
become most-recently-used. -/
theorem validateMX_hit_leaves_lastUsed_unchanged :
    (validateMX hitValidator "gmail.com" 5 (some "lookup failure")).2 = none ∧
    (validateMX hitValidator "gmail.com" 5 (some "lookup failure")).1.dnsCache =
      [("gmail.com", { err := none, cachedAt := 0, lastUsed := 0 })] := by
  constructor <;> rfl

/-! ## Claim C6: cached outcomes are served only while fresh -/

lemma findEntry_append_single (c : List (String × DnsResult)) (k : String) (r : DnsResult)
    (h : c.any (fun e => e.1 == k) = false) :
    findEntry (c ++ [(k, r)]) k = some r := by
  induction c with
  | nil => simp [findEntry, List.find?]
  | cons e es ih =>
      simp only [List.any_cons, Bool.or_eq_false_iff] at h
      simpa [findEntry, List.find?, h.1] using ih h.2

lemma findEntry_map_overwrite (c : List (String × DnsResult)) (k : String) (r : DnsResult)
    (h : c.any (fun e => e.1 == k) = true) :
    findEntry (c.map fun e => if e.1 == k then (k, r) else e) k = some r := by
  induction c with
  | nil => simp at h
  | cons e es ih =>
      by_cases he : e.1 == k
      · simp [findEntry, List.find?, he]
      · simp only [List.any_cons, he, Bool.false_or] at h
        simpa [findEntry, List.find?, he] using ih h

/-- A (re)inserted key maps to the freshly inserted entry. -/
lemma findEntry_insertEntry_self (c : List (String × DnsResult)) (k : String) (r : DnsResult) :
    findEntry (insertEntry c k r) k = some r := by
  unfold insertEntry
  by_cases h : c.any (fun e => e.1 == k)
  · rw [if_pos h]
    exact findEntry_map_overwrite c k r h
  · rw [if_neg h]
    exact findEntry_append_single c k r (Bool.eq_false_iff.mpr h)

/-- C6: with DNS checking on and an entry cached for the domain, `validateMX`
serves the cached outcome exactly when the entry's age at the moment of the
call is strictly below `DNSCacheTTL`: in that case the returned error is the
cached one, the external lookup outcome is irrelevant (the call's result does
not depend on it — no lookup is performed), and the state is unchanged; when
the age has reached the TTL, the call instead returns the fresh lookup's
outcome and re-caches the domain at the current time. -/
theorem validateMX_serves_only_fresh_hits (v : Validator) (d : String) (now : Int)
    (r : DnsResult)
    (hdns : v.options.checkDNS = true)
    (hfind : findEntry v.dnsCache d = some r) :
    (now - r.cachedAt < v.options.dnsCacheTTL →
      ∀ lk lk2 : Option String,
        validateMX v d now lk = (v, r.err) ∧
        validateMX v d now lk = validateMX v d now lk2) ∧
    (v.options.dnsCacheTTL ≤ now - r.cachedAt →
      ∀ lk : Option String,
        (validateMX v d now lk).2 = lk ∧
        findEntry (validateMX v d now lk).1.dnsCache d =
          some { err := lk, cachedAt := now, lastUsed := now }) := by
  constructor
  · intro hfresh lk lk2
    constructor <;> simp [validateMX, hdns, hfind, hfresh]
  · intro hstale lk
    have hnot : ¬ (now - r.cachedAt < v.options.dnsCacheTTL) := not_lt.mpr hstale
    constructor
    · simp [validateMX, hdns, hfind, hnot, validateMXMiss]
    · simp only [validateMX, hdns, Bool.not_true, Bool.false_eq_true, if_false, hfind, hnot,
        if_false]
      exact findEntry_insertEntry_self _ d _

/-- C6 witness: the concrete cached `gmail.com` entry is served at time 5
(age 5 < TTL 100) ignoring the pending lookup outcome, and is re-looked-up
at time 200 (age 200 ≥ TTL 100), returning the fresh outcome. -/
theorem validateMX_serves_only_fresh_hits_witness :
    validateMX hitValidator "gmail.com" 5 (some "x") = (hitValidator, none) ∧
    (validateMX hitValidator "gmail.com" 200 (some "x")).2 = some "x" :=
  ⟨((validateMX_serves_only_fresh_hits hitValidator "gmail.com" 5
        { err := none, cachedAt := 0, lastUsed := 0 } rfl rfl).1 (by decide)
        (some "x") none).1,
    ((validateMX_serves_only_fresh_hits hitValidator "gmail.com" 200
        { err := none, cachedAt := 0, lastUsed := 0 } rfl rfl).2 (by decide)
        (some "x")).1⟩

/-! ## Claim C5: the cache never exceeds the configured capacity -/

lemma insertEntry_length_le (c : List (String × DnsResult)) (k : String) (r : DnsResult) :
    (insertEntry c k r).length ≤ c.length + 1 := by
  unfold insertEntry
  split <;> simp

/-- The running minimum of the LRU fold is one of the candidates. -/
lemma foldl_lru_mem (es : List (String × DnsResult)) (e : String × DnsResult) :
    es.foldl (fun acc e2 => if e2.2.lastUsed < acc.2.lastUsed then e2 else acc) e ∈ e :: es := by
  induction es generalizing e with
  | nil => simp
  | cons x xs ih =>
      simp only [List.foldl_cons]
      rcases List.mem_cons.mp (ih (if x.2.lastUsed < e.2.lastUsed then x else e)) with h | h
      · rw [h]
        split
        · exact List.mem_cons_of_mem _ (List.mem_cons_self _ _)
        · exact List.mem_cons_self _ _
      · exact List.mem_cons_of_mem _ (List.mem_cons_of_mem _ h)

lemma lruKey_mem (c : List (String × DnsResult)) (hc : c ≠ []) :
    ∃ e ∈ c, e.1 = lruKey c := by
  match c with
  | [] => exact absurd rfl hc
  | e :: es =>
      unfold lruKey
      exact ⟨_, foldl_lru_mem es e, rfl⟩

lemma eraseEntry_length_lt (c : List (String × DnsResult)) (k : String)
    (h : ∃ e ∈ c, e.1 = k) : (eraseEntry c k).length < c.length := by
  rcases h with ⟨e, he, hk⟩
  refine List.length_filter_lt_length_iff_exists.mpr ⟨e, he, ?_⟩
  simp [hk]

/-- The eviction block (`mxlookup.go:59-85`) leaves strictly fewer entries
than the capacity whenever the capacity is positive and the cache respected
it beforehand. -/
lemma evictForInsert_length_lt (cache : List (String × DnsResult)) (now ttl size : Int)
    (hpos : 1 ≤ size) (hlen : (cache.length : Int) ≤ size) :
    ((evictForInsert cache now ttl size).length : Int) < size := by
  unfold evictForInsert
  by_cases hguard : size ≤ (cache.length : Int)
  · rw [if_pos hguard]
    have hsurv : ((evictExpired cache now ttl).length : Int) ≤ size := by
      have := List.length_filter_le (fun e => now - e.2.cachedAt < ttl) cache
      exact le_trans (by exact_mod_cast this) hlen
    by_cases hstill : size ≤ ((evictExpired cache now ttl).length : Int)
    · rw [if_pos hstill]
      have hne : evictExpired cache now ttl ≠ [] := by
        intro hnil
        rw [hnil] at hstill
        simp at hstill
        omega
      have := eraseEntry_length_lt (evictExpired cache now ttl) (lruKey (evictExpired cache now ttl))
        (lruKey_mem _ hne)
      have hcast : ((eraseEntry (evictExpired cache now ttl) (lruKey (evictExpired cache now ttl))).length : Int)
          < ((evictExpired cache now ttl).length : Int) := by exact_mod_cast this
      omega
    · rw [if_neg hstill]
      omega
  · rw [if_neg hguard]
    omega

/-- The shared miss path preserves the options and the capacity bound. -/
lemma validateMXMiss_preserves_bound (v : Validator) (d : String) (now : Int) (lk : Option String)
    (hpos : 1 ≤ v.options.dnsCacheSize)
    (hlen : (v.dnsCache.length : Int) ≤ v.options.dnsCacheSize) :
    (validateMXMiss v d now lk).1.options = v.options ∧
    (((validateMXMiss v d now lk).1.dnsCache.length : Int) ≤ v.options.dnsCacheSize) := by
  refine ⟨rfl, ?_⟩
  have hev := evictForInsert_length_lt v.dnsCache now v.options.dnsCacheTTL
    v.options.dnsCacheSize hpos hlen
  have hins := insertEntry_length_le
    (evictForInsert v.dnsCache now v.options.dnsCacheTTL v.options.dnsCacheSize) d
    { err := lk, cachedAt := now, lastUsed := now }
  have hcast : ((insertEntry (evictForInsert v.dnsCache now v.options.dnsCacheTTL
      v.options.dnsCacheSize) d { err := lk, cachedAt := now, lastUsed := now }).length : Int)
      ≤ ((evictForInsert v.dnsCache now v.options.dnsCacheTTL
        v.options.dnsCacheSize).length : Int) + 1 := by exact_mod_cast hins
  show ((insertEntry (evictForInsert v.dnsCache now v.options.dnsCacheTTL
      v.options.dnsCacheSize) d { err := lk, cachedAt := now, lastUsed := now }).length : Int)
      ≤ v.options.dnsCacheSize
  omega

/-- One `validateMX` call preserves the options and the capacity bound. -/
lemma validateMX_preserves_bound (v : Validator) (d : String) (now : Int) (lk : Option String)
    (hpos : 1 ≤ v.options.dnsCacheSize)
    (hlen : (v.dnsCache.length : Int) ≤ v.options.dnsCacheSize) :
    (validateMX v d now lk).1.options = v.options ∧
    (((validateMX v d now lk).1.dnsCache.length : Int) ≤ v.options.dnsCacheSize) := by
  unfold validateMX
  split
  · exact ⟨rfl, hlen⟩
  · split
    · split
      · exact ⟨rfl, hlen⟩
      · exact validateMXMiss_preserves_bound v d now lk hpos hlen
    · exact validateMXMiss_preserves_bound v d now lk hpos hlen

lemma runResolutions_preserves_bound (steps : List (String × Int × Option String))
    (v : Validator)
    (hpos : 1 ≤ v.options.dnsCacheSize)
    (hlen : (v.dnsCache.length : Int) ≤ v.options.dnsCacheSize) :
    (runResolutions v steps).options = v.options ∧
    ((runResolutions v steps).dnsCache.length : Int) ≤ v.options.dnsCacheSize := by
  induction steps generalizing v with
  | nil => exact ⟨rfl, hlen⟩
  | cons s ss ih =>
      obtain ⟨ho, hl⟩ := validateMX_preserves_bound v s.1 s.2.1 s.2.2 hpos hlen
      obtain ⟨ho2, hl2⟩ := ih (validateMX v s.1 s.2.1 s.2.2).1 (ho ▸ hpos) (ho ▸ hl)
      rw [ho] at ho2 hl2
      exact ⟨ho2, hl2⟩

/-- C5 counterexample: `New` passes a negative `DNSCacheSize` through
unchanged (`mergeWithDefaults` only replaces the zero value), and then the
cache can never stay within the "capacity": after a single resolution it
holds one entry, exceeding the configured `-1`. -/
theorem dnsCache_capacity_fails_for_negative_capacity :
    (newValidator { defaultOptions with checkDNS := true, dnsCacheSize := -1 } [] []).options.dnsCacheSize = -1 ∧
    ¬ (((runResolutions
          (newValidator { defaultOptions with checkDNS := true, dnsCacheSize := -1 } [] [])
          [("a.com", 0, none)]).dnsCache.length : Int)
        ≤ (newValidator { defaultOptions with checkDNS := true, dnsCacheSize := -1 } [] []).options.dnsCacheSize) := by
  constructor
  · rfl
  · decide

/-- C5 (amended): after any sequence of `validateMX` resolutions on a
validator constructed by `New`, the DNS cache holds at most `DNSCacheSize`
entries, provided the configured capacity (after zero-value defaulting) is
positive — which holds for every non-negative configured value, a zero
`DNSCacheSize` being replaced by the default 1000. -/
theorem dnsCache_never_exceeds_capacity (opts : Options) (loadedD loadedF : List String)
    (steps : List (String × Int × Option String))
    (hpos : 1 ≤ (mergeWithDefaults opts).dnsCacheSize) :
    ((runResolutions (newValidator opts loadedD loadedF) steps).dnsCache.length : Int)
      ≤ (mergeWithDefaults opts).dnsCacheSize := by
  have h := runResolutions_preserves_bound steps (newValidator opts loadedD loadedF) hpos
    (by simp [newValidator]; omega)
  exact h.2

/-- C5 witness: two resolutions on a default-configured validator with DNS
checking on stay within the merged capacity of 1000. -/
theorem dnsCache_never_exceeds_capacity_witness :
    ((runResolutions (newValidator { defaultOptions with checkDNS := true } [] [])
        [("a.com", 0, none), ("b.com", 1, some "no mx")]).dnsCache.length : Int)
      ≤ (mergeWithDefaults { defaultOptions with checkDNS := true }).dnsCacheSize :=
  dnsCache_never_exceeds_capacity { defaultOptions with checkDNS := true } [] []
    [("a.com", 0, none), ("b.com", 1, some "no mx")] (by decide)

/-! ## Claim C8: `ValidateMany` returns one result per input -/

/-- C8: for any arrival order of the fan-out's results (any permutation of
the input positions — the channel delivers exactly one result per launched
goroutine), the returned collection is, as a multiset, the list of
per-address `Validate` results: it is a permutation of `emails.map Validate`
and has exactly one element per input; the empty input returns the empty
collection rather than an error. -/
theorem validateMany_one_result_per_input (v : Validator) (ext : Ext) (now : Int)
    (emails : List String) (arrival : List (Fin emails.length))
    (harr : arrival.Perm (List.finRange emails.length)) :
    (validateMany v ext now emails arrival).Perm (emails.map (validate v ext now)) ∧
    (validateMany v ext now emails arrival).length = emails.length ∧
    validateMany v ext now [] [] = [] := by
  have hmap : validateMany v ext now emails arrival
      = arrival.map fun i => validate v ext now (emails.get i) := by
    cases emails with
    | nil =>
        have harr0 : arrival = [] :=
          List.eq_nil_of_length_eq_zero (by simpa using harr.length_eq)
        subst harr0
        rfl
    | cons e es => rfl
  have h2 : ((List.finRange emails.length).map fun i => validate v ext now (emails.get i))
      = emails.map (validate v ext now) := by
    have h3 := congrArg (List.map (validate v ext now)) (List.finRange_map_get emails)
    rw [List.map_map] at h3
    exact h3
  have hperm : (validateMany v ext now emails arrival).Perm
      (emails.map (validate v ext now)) := by
    rw [hmap, ← h2]
    exact harr.map _
  refine ⟨hperm, ?_, rfl⟩
  rw [hmap]
  simpa using harr.length_eq

/-- Oracles for the C8 witness: every input fails to parse, no bracketed IP
literals, every MX lookup succeeds. -/
def extTrivial : Ext :=
  { parseAddress := fun _ => none, parseIP := fun _ => false, lookupMX := fun _ => none }

/-- C8 witness: a two-address batch whose results arrive in reversed order
is still a permutation of the two per-address results. -/
theorem validateMany_one_result_per_input_witness :
    (validateMany (newValidator defaultOptions [] []) extTrivial 0 ["a@x.com", "bad"]
        [⟨1, by decide⟩, ⟨0, by decide⟩]).Perm
      (["a@x.com", "bad"].map (validate (newValidator defaultOptions [] []) extTrivial 0)) :=
  (validateMany_one_result_per_input (newValidator defaultOptions [] []) extTrivial 0
    ["a@x.com", "bad"] [⟨1, by decide⟩, ⟨0, by decide⟩] (by decide)).1

end Mailcop
